import Mathlib

/-!
Verification of the Megaverse uploader.

The repository has two source files:
* `src/api.ts` — `MegaverseAPI`, a retrying HTTP client wrapper around axios
  and p-retry (`shouldRetry`, `handleError`, `withRetry`, `makeRequest` and
  the public operations);
* `src/main.ts` — the reconciliation driver `createPhase2Logo`, which
  fetches the goal map, flattens it into entity lists, submits creates in
  fixed batches of five with a pause between batches, and validates.

Both are shallowly embedded below.  The transport (axios) and the retry
library (p-retry) are external collaborators: a transport is modelled as a
function from the attempt number to that attempt's outcome, and the p-retry
loop is modelled from its documented contract as configured in `withRetry`
(`retries: 3`, `factor: 2`, `minTimeout: 1000`, `maxTimeout: 8000`, and the
`shouldRetry` predicate consulted on every failed attempt).
-/

namespace Megaverse

/-- `APIResponse` from `api.ts`: the uniform result of one remote call —
success flag, human-readable message, and the optional decoded body. -/
structure APIResponse (γ : Type) where
  success : Bool
  message : String
  data : Option γ := none
deriving DecidableEq

/-- The `response` attached to an `AxiosError` when the server answered:
HTTP status, the optional `message` field of the JSON error body
(`error.response.data?.message`) and the HTTP `statusText`. -/
structure ErrResponse where
  status : Nat
  dataMessage : Option String
  statusText : String
deriving DecidableEq

/-- A value a transport attempt can reject with: an `AxiosError` (carrying
its `message`, optional `response`, and whether a `request` was sent), some
other JavaScript `Error`, or a thrown non-`Error` value. -/
inductive JSError where
  | axios (message : String) (response : Option ErrResponse) (hasRequest : Bool)
  | jsError (message : String)
  | nonError
deriving DecidableEq

/-- `MegaverseAPI.shouldRetry` (api.ts 42-50): for an `AxiosError`, retry
when there is no response at all, or the status is a server error (>= 500)
or 429; any other thrown value is also retried. -/
def shouldRetry : JSError → Bool
  | .axios _ (some r) _ => decide (r.status ≥ 500) || decide (r.status = 429)
  | .axios _ none _ => true
  | .jsError _ => true
  | .nonError => true

/-- JS `a || b` on an optional string field: `b` when the field is missing
or empty (falsy), otherwise the field itself.  Used for
`error.response.data?.message || error.response.statusText`. -/
def orElseStr : Option String → String → String
  | some m, alt => if m = "" then alt else m
  | none, alt => alt

/-- `MegaverseAPI.handleError` (api.ts 52-72): translate any caught value
into a failed `APIResponse` whose message names the operation context. -/
def handleError {γ : Type} (error : JSError) (context : String) : APIResponse γ :=
  match error with
  | .axios _ (some r) _ =>
      { success := false
        message := context ++ " failed: " ++ orElseStr r.dataMessage r.statusText }
  | .axios _ none true =>
      { success := false
        message := context ++ " failed: Unable to connect to the API after retries" }
  | .axios m none false =>
      { success := false, message := context ++ " failed: " ++ m }
  | .jsError m =>
      { success := false, message := context ++ " failed: " ++ m }
  | .nonError =>
      { success := false, message := context ++ " failed: Unknown error" }

/-- Outcome of one underlying transport attempt: the operation resolved
(with the optional `data` field of the response), or rejected with an
error. -/
inductive AttemptResult (γ : Type) where
  | ok (respData : Option γ)
  | err (e : JSError)
deriving DecidableEq

/-- `retries: 3` in the p-retry options of `withRetry`. -/
def retriesBudget : Nat := 3

/-- `minTimeout: 1000` in the p-retry options of `withRetry`. -/
def minTimeoutMs : Nat := 1000

/-- `maxTimeout: 8000` in the p-retry options of `withRetry`. -/
def maxTimeoutMs : Nat := 8000

/-- `factor: 2` in the p-retry options of `withRetry`. -/
def backoffFactor : Nat := 2

/-- The delay p-retry waits before retry number `n` (1-based), per the
retry library contract: `min(minTimeout * factor ^ (n - 1), maxTimeout)`. -/
def backoffDelay (n : Nat) : Nat :=
  min (minTimeoutMs * backoffFactor ^ (n - 1)) maxTimeoutMs

/-- What one p-retry run did: how many attempts were started, which backoff
delays were waited between them, and the final outcome (the resolved value,
or the last error, which p-retry rethrows). -/
structure RetryTrace (γ : Type) where
  attemptsMade : Nat
  delays : List Nat
  outcome : AttemptResult γ
deriving DecidableEq

/-- The p-retry loop as configured in `withRetry` (api.ts 79-88), modelled
from the library contract: run the attempt; on failure, if retries remain
and `shouldRetry` approves, wait the backoff delay and try again, otherwise
rethrow the error. -/
def pRetryGo {γ : Type} (op : Nat → AttemptResult γ) :
    Nat → Nat → List Nat → RetryTrace γ
  | attemptNumber, 0, delays =>
    match op attemptNumber with
    | .ok d => ⟨attemptNumber, delays, .ok d⟩
    | .err e => ⟨attemptNumber, delays, .err e⟩
  | attemptNumber, rl + 1, delays =>
    match op attemptNumber with
    | .ok d => ⟨attemptNumber, delays, .ok d⟩
    | .err e =>
      if shouldRetry e then
        pRetryGo op (attemptNumber + 1) rl (delays ++ [backoffDelay attemptNumber])
      else ⟨attemptNumber, delays, .err e⟩

/-- A whole p-retry run: first attempt is number 1, with the full retry
budget. -/
def pRetryRun {γ : Type} (op : Nat → AttemptResult γ) : RetryTrace γ :=
  pRetryGo op 1 retriesBudget []

/-- `MegaverseAPI.withRetry` (api.ts 74-98): run the operation through
p-retry; on resolution return a successful `APIResponse` carrying the
response body, and catch any rethrown error via `handleError`. -/
def withRetry {γ : Type} (op : Nat → AttemptResult γ) (context : String) :
    APIResponse γ :=
  match (pRetryRun op).outcome with
  | .ok d => { success := true, message := "Request successful", data := d }
  | .err e => handleError e context

/-- `MegaverseAPI.makeRequest` (api.ts 100-113): wrap one entity request in
`withRetry` with the `METHOD endpoint` context string. -/
def makeRequest {γ : Type} (op : Nat → AttemptResult γ)
    (method endpoint : String) : APIResponse γ :=
  withRetry op (method ++ " " ++ endpoint)

/-- `createPolyanet` (api.ts 115-117). -/
def createPolyanet {γ : Type} (op : Nat → AttemptResult γ) : APIResponse γ :=
  makeRequest op "POST" "polyanets"

/-- `deletePolyanet` (api.ts 119-121). -/
def deletePolyanet {γ : Type} (op : Nat → AttemptResult γ) : APIResponse γ :=
  makeRequest op "DELETE" "polyanets"

/-- `createSoloon` (api.ts 123-125). -/
def createSoloon {γ : Type} (op : Nat → AttemptResult γ) : APIResponse γ :=
  makeRequest op "POST" "soloons"

/-- `deleteSoloon` (api.ts 127-129). -/
def deleteSoloon {γ : Type} (op : Nat → AttemptResult γ) : APIResponse γ :=
  makeRequest op "DELETE" "soloons"

/-- `createCometh` (api.ts 131-133). -/
def createCometh {γ : Type} (op : Nat → AttemptResult γ) : APIResponse γ :=
  makeRequest op "POST" "comeths"

/-- `deleteCometh` (api.ts 135-137). -/
def deleteCometh {γ : Type} (op : Nat → AttemptResult γ) : APIResponse γ :=
  makeRequest op "DELETE" "comeths"

/-- `getGoalMap` (api.ts 139-150): `withRetry` plus a friendlier success
message. -/
def getGoalMap {γ : Type} (op : Nat → AttemptResult γ) : APIResponse γ :=
  let response := withRetry op "getGoalMap"
  if response.success then
    { response with message := "Goal map retrieved successfully" }
  else response

/-- `validateMap` (api.ts 152-163): `withRetry` plus a friendlier success
message. -/
def validateMap {γ : Type} (op : Nat → AttemptResult γ) : APIResponse γ :=
  let response := withRetry op "validateMap"
  if response.success then
    { response with message := "Map validation successful" }
  else response

/-- The HTTP status carried by an error, when the server sent a response at
all. -/
def respStatus : JSError → Option Nat
  | .axios _ (some r) _ => some r.status
  | _ => none

theorem handleError_success {γ : Type} (e : JSError) (context : String) :
    (handleError e context : APIResponse γ).success = false := by
  cases e with
  | axios m resp hr =>
    cases resp with
    | none => cases hr <;> simp [handleError]
    | some r => simp [handleError]
  | jsError m => simp [handleError]
  | nonError => simp [handleError]

theorem pRetryGo_stop {γ : Type} (op : Nat → AttemptResult γ) (e : JSError)
    (he : shouldRetry e = false) :
    ∀ (rl n : Nat) (ds : List Nat), op n = .err e →
      pRetryGo op n rl ds = ⟨n, ds, .err e⟩ := by
  intro rl
  cases rl with
  | zero => intro n ds hn; simp [pRetryGo, hn]
  | succ rl => intro n ds hn; simp [pRetryGo, hn, he]

theorem pRetryGo_step {γ : Type} (op : Nat → AttemptResult γ) (e : JSError)
    (he : shouldRetry e = true) (rl n : Nat) (ds : List Nat)
    (hn : op n = .err e) :
    pRetryGo op n (rl + 1) ds = pRetryGo op (n + 1) rl (ds ++ [backoffDelay n]) := by
  simp [pRetryGo, hn, he]

theorem pRetryGo_attempts_ge {γ : Type} (op : Nat → AttemptResult γ) :
    ∀ (rl n : Nat) (ds : List Nat), n ≤ (pRetryGo op n rl ds).attemptsMade := by
  intro rl
  induction rl with
  | zero => intro n ds; cases h : op n <;> simp [pRetryGo, h]
  | succ rl ih =>
    intro n ds
    cases h : op n with
    | ok d => simp [pRetryGo, h]
    | err e =>
      by_cases hr : shouldRetry e = true
      · rw [pRetryGo_step op e hr rl n ds h]
        exact le_trans (Nat.le_succ n) (ih (n + 1) _)
      · rw [pRetryGo_stop op e (by simpa using hr) (rl + 1) n ds h]

theorem pRetryGo_attempts_le {γ : Type} (op : Nat → AttemptResult γ) :
    ∀ (rl n : Nat) (ds : List Nat), (pRetryGo op n rl ds).attemptsMade ≤ n + rl := by
  intro rl
  induction rl with
  | zero => intro n ds; cases h : op n <;> simp [pRetryGo, h]
  | succ rl ih =>
    intro n ds
    cases h : op n with
    | ok d => simp [pRetryGo, h]
    | err e =>
      by_cases hr : shouldRetry e = true
      · rw [pRetryGo_step op e hr rl n ds h]
        calc (pRetryGo op (n + 1) rl _).attemptsMade ≤ (n + 1) + rl := ih (n + 1) _
          _ = n + (rl + 1) := by omega
      · rw [pRetryGo_stop op e (by simpa using hr) (rl + 1) n ds h]
        simp

theorem pRetryGo_allFail {γ : Type} (op : Nat → AttemptResult γ)
    (h : ∀ n, ∃ e, op n = .err e ∧ shouldRetry e = true) :
    ∀ (rl n : Nat) (ds : List Nat),
      (pRetryGo op n rl ds).attemptsMade = n + rl ∧
      (pRetryGo op n rl ds).delays =
        ds ++ (List.range rl).map (fun i => backoffDelay (n + i)) ∧
      ∃ e, (pRetryGo op n rl ds).outcome = .err e := by
  intro rl
  induction rl with
  | zero =>
    intro n ds
    obtain ⟨e, he, -⟩ := h n
    simp [pRetryGo, he]
  | succ rl ih =>
    intro n ds
    obtain ⟨e, he, hr⟩ := h n
    rw [pRetryGo_step op e hr rl n ds he]
    obtain ⟨h1, h2, h3⟩ := ih (n + 1) (ds ++ [backoffDelay n])
    refine ⟨by omega, ?_, h3⟩
    rw [h2, List.range_succ_eq_map]
    simp [List.map_map, Function.comp, Nat.add_assoc, Nat.add_comm 1]

/-- Key relation for the propagation claims: the `APIResponse` `r` is
exactly what the final p-retry outcome dictates — on resolution a success
carrying the decoded body, on a rethrown error precisely `handleError`
applied to it.  In particular no escape path other than these two exists. -/
def settledFrom {γ : Type} (r : APIResponse γ) (op : Nat → AttemptResult γ)
    (context : String) : Prop :=
  match (pRetryRun op).outcome with
  | .ok d => r.success = true ∧ r.data = d
  | .err e => r = handleError e context

theorem settledFrom_withRetry {γ : Type} (op : Nat → AttemptResult γ)
    (context : String) : settledFrom (withRetry op context) op context := by
  unfold settledFrom withRetry
  cases h : (pRetryRun op).outcome with
  | ok d => simp
  | err e => simp

/-- C2: a failed attempt is retried exactly when the retry predicate holds
(no response received, status >= 500, or status 429); a response with any
other status below 500 — e.g. a 404 — is never retried: the run stops after
a single attempt and reports a failed result; conversely a first attempt
failing retryably is followed by at least a second attempt. -/
theorem C2_retry_iff_predicate :
    (∀ e : JSError, shouldRetry e = true ↔
      (respStatus e = none ∨ ∃ s, respStatus e = some s ∧ (500 ≤ s ∨ s = 429))) ∧
    (∀ (γ : Type) (op : Nat → AttemptResult γ) (e : JSError) (s : Nat),
      op 1 = .err e → respStatus e = some s → s < 500 → s ≠ 429 →
      (pRetryRun op).attemptsMade = 1 ∧
        ∀ context, (withRetry op context).success = false) ∧
    (∀ (γ : Type) (op : Nat → AttemptResult γ) (e : JSError),
      op 1 = .err e → shouldRetry e = true → 2 ≤ (pRetryRun op).attemptsMade) := by
  refine ⟨?_, ?_, ?_⟩
  · intro e
    cases e with
    | axios m resp hr =>
      cases resp with
      | none => simp [shouldRetry, respStatus]
      | some r =>
        simp only [shouldRetry, respStatus, Bool.or_eq_true, decide_eq_true_eq]
        constructor
        · rintro (h | h) <;> exact Or.inr ⟨r.status, rfl, by tauto⟩
        · rintro (h | ⟨s, hs, h⟩)
          · exact absurd h (by simp)
          · obtain rfl : r.status = s := by simpa using hs
            tauto
    | jsError m => simp [shouldRetry, respStatus]
    | nonError => simp [shouldRetry, respStatus]
  · intro γ op e s h1 h2 h3 h4
    have hsr : shouldRetry e = false := by
      cases e with
      | axios m resp hr =>
        cases resp with
        | none => simp [respStatus] at h2
        | some r =>
          obtain rfl : r.status = s := by simpa [respStatus] using h2
          simp only [shouldRetry, Bool.or_eq_false_iff, decide_eq_false_iff_not]
          omega
      | jsError m => simp [respStatus] at h2
      | nonError => simp [respStatus] at h2
    have hrun : pRetryRun op = ⟨1, [], .err e⟩ := by
      unfold pRetryRun
      exact pRetryGo_stop op e hsr retriesBudget 1 [] h1
    refine ⟨by rw [hrun], ?_⟩
    intro context
    unfold withRetry
    rw [hrun]
    exact handleError_success e context
  · intro γ op e h1 hr
    have hbudget : retriesBudget = 2 + 1 := rfl
    unfold pRetryRun
    rw [hbudget, pRetryGo_step op e hr 2 1 [] h1]
    exact pRetryGo_attempts_ge op 2 2 _

/-- A transport that rejects every attempt with a simulated 404 response. -/
def transport404 : Nat → AttemptResult Unit := fun _ =>
  .err (.axios "Request failed with status code 404"
    (some ⟨404, none, "Not Found"⟩) true)

/-- A transport that rejects every attempt with a simulated 500 response. -/
def transport500 : Nat → AttemptResult Unit := fun _ =>
  .err (.axios "Request failed with status code 500"
    (some ⟨500, none, "Internal Server Error"⟩) true)

/-- C2 witness: a simulated 404 response on the first attempt is not
retried — one total attempt — and is reported as a failed result. -/
theorem C2_retry_iff_predicate_witness :
    (pRetryRun transport404).attemptsMade = 1 ∧
    (withRetry transport404 "POST polyanets").success = false := by
  have h := C2_retry_iff_predicate.2.1 Unit transport404
    (.axios "Request failed with status code 404"
      (some ⟨404, none, "Not Found"⟩) true)
    404 rfl rfl (by decide) (by decide)
  exact ⟨h.1, h.2 "POST polyanets"⟩

/-- C3: every operation makes at most 4 attempts (3 retries); when every
attempt fails retryably — e.g. a simulated 500 on each try — exactly 4
attempts are made, the delays before retries 1, 2, 3 are the exponential
backoff values min(1000 * 2 ^ (n - 1), 8000) = 1000, 2000, 4000 ms,
strictly increasing and capped by the 8000 ms maximum, and the operation is
reported as a failed result. -/
theorem C3_backoff_schedule :
    (∀ (γ : Type) (op : Nat → AttemptResult γ),
      (pRetryRun op).attemptsMade ≤ 1 + retriesBudget) ∧
    (∀ (γ : Type) (op : Nat → AttemptResult γ),
      (∀ n, ∃ e, op n = .err e ∧ shouldRetry e = true) →
      (pRetryRun op).attemptsMade = 1 + retriesBudget ∧
      (pRetryRun op).delays = [backoffDelay 1, backoffDelay 2, backoffDelay 3] ∧
      (pRetryRun op).delays = [1000, 2000, 4000] ∧
      List.Chain' (· < ·) (pRetryRun op).delays ∧
      (∀ d ∈ (pRetryRun op).delays, d ≤ maxTimeoutMs) ∧
      ∀ context, (withRetry op context).success = false) := by
  constructor
  · intro γ op
    exact pRetryGo_attempts_le op retriesBudget 1 []
  · intro γ op h
    obtain ⟨h1, h2, e, h3⟩ := pRetryGo_allFail op h retriesBudget 1 []
    have hdelays : (pRetryRun op).delays = [backoffDelay 1, backoffDelay 2, backoffDelay 3] := by
      rw [pRetryRun] at *
      rw [h2]
      decide
    have hvals : (pRetryRun op).delays = [1000, 2000, 4000] := by
      rw [hdelays]; decide
    refine ⟨by rw [pRetryRun] at *; omega, hdelays, hvals, ?_, ?_, ?_⟩
    · rw [hvals]
      exact List.chain'_cons.mpr ⟨by norm_num,
        List.chain'_cons.mpr ⟨by norm_num, List.chain'_singleton _⟩⟩
    · rw [hvals]
      intro d hd
      rw [maxTimeoutMs]
      simp only [List.mem_cons, List.not_mem_nil, or_false] at hd
      rcases hd with rfl | rfl | rfl <;> norm_num
    · intro context
      unfold withRetry
      rw [pRetryRun] at *
      rw [h3]
      exact handleError_success e context

/-- C3 witness: an operation rejecting with a simulated 500 on every
attempt makes 4 attempts with delays 1000, 2000, 4000 ms and ends as a
failed result. -/
theorem C3_backoff_schedule_witness :
    (pRetryRun transport500).attemptsMade = 4 ∧
    (pRetryRun transport500).delays = [1000, 2000, 4000] ∧
    (withRetry transport500 "getGoalMap").success = false := by
  have h := C3_backoff_schedule.2 Unit transport500
    (fun n => ⟨_, rfl, by decide⟩)
  exact ⟨h.1, h.2.2.1, h.2.2.2.2.2 "getGoalMap"⟩

/-- C4: every public client operation, whatever the transport does on each
attempt — resolve, reject with an HTTP error response, reject with no
response, or throw any other value — settles to a uniform `APIResponse`:
a success carrying the decoded body when p-retry resolves, and exactly the
`handleError` translation (always a failure, never a rethrow) otherwise. -/
theorem C4_no_exception_escapes :
    ∀ (γ : Type) (op : Nat → AttemptResult γ),
      settledFrom (createPolyanet op) op "POST polyanets" ∧
      settledFrom (deletePolyanet op) op "DELETE polyanets" ∧
      settledFrom (createSoloon op) op "POST soloons" ∧
      settledFrom (deleteSoloon op) op "DELETE soloons" ∧
      settledFrom (createCometh op) op "POST comeths" ∧
      settledFrom (deleteCometh op) op "DELETE comeths" ∧
      settledFrom (getGoalMap op) op "getGoalMap" ∧
      settledFrom (validateMap op) op "validateMap" ∧
      ∀ (e : JSError) (context : String),
        (handleError e context : APIResponse γ).success = false := by
  intro γ op
  have hmk : ∀ method endpoint : String,
      settledFrom (makeRequest op method endpoint) op (method ++ " " ++ endpoint) :=
    fun method endpoint => settledFrom_withRetry op _
  have hgoal : settledFrom (getGoalMap op) op "getGoalMap" := by
    unfold getGoalMap settledFrom withRetry
    cases h : (pRetryRun op).outcome with
    | ok d => simp [h]
    | err e => simp [h, handleError_success]
  have hvalidate : settledFrom (validateMap op) op "validateMap" := by
    unfold validateMap settledFrom withRetry
    cases h : (pRetryRun op).outcome with
    | ok d => simp [h]
    | err e => simp [h, handleError_success]
  exact ⟨hmk "POST" "polyanets", hmk "DELETE" "polyanets", hmk "POST" "soloons",
    hmk "DELETE" "soloons", hmk "POST" "comeths", hmk "DELETE" "comeths",
    hgoal, hvalidate, fun e context => handleError_success e context⟩

/-! ## The goal-map flattening of `createPhase2Logo` (main.ts 56-87) -/

/-- An untyped goal-map cell as JavaScript sees it: a string, or any value
of another type (number, boolean, null, undefined, object/array). -/
inductive JSValue where
  | vstr (s : String)
  | vnum (n : Int)
  | vbool (b : Bool)
  | vnull
  | vundef
  | vobj
deriving DecidableEq

/-- List-level check that the first list starts the second, used to model
the JS string methods below. -/
def isPrefOf : List Char → List Char → Bool
  | [], _ => true
  | _ :: _, [] => false
  | a :: as, b :: bs => a == b && isPrefOf as bs

/-- JS `s.endsWith(pat)`. -/
def jsEndsWith (s pat : String) : Bool :=
  isPrefOf pat.data.reverse s.data.reverse

/-- Remove the FIRST occurrence of `pat` (JS `replace` with a string
pattern and empty replacement replaces only the first occurrence). -/
def replFirstL (pat : List Char) : List Char → List Char
  | [] => []
  | c :: cs =>
    if isPrefOf pat (c :: cs) then (c :: cs).drop pat.length
    else c :: replFirstL pat cs

/-- JS `s.replace(pat, '')`: drop the first occurrence of `pat` from `s`. -/
def jsReplaceFirst (s pat : String) : String :=
  ⟨replFirstL pat.data s.data⟩

/-- JS `toLowerCase`, on the ASCII range goal-map labels use. -/
def jsToLower (s : String) : String :=
  ⟨s.data.map Char.toLower⟩

/-- The three accumulator arrays `polyanets`, `soloons`, `comeths` of
`createPhase2Logo` (main.ts 57-59); a soloon carries its color string and a
cometh its direction string. -/
structure Collected where
  polyanets : List (Nat × Nat)
  soloons : List (Nat × Nat × String)
  comeths : List (Nat × Nat × String)
deriving DecidableEq

/-- The body of the nested cell loop (main.ts 63-75): a truthy string cell
other than `SPACE` is classified — exact `POLYANET`, `_SOLOON` suffix with
the color from `replace('_SOLOON','').toLowerCase()`, `_COMETH` suffix
analogously — and pushed onto the matching accumulator; anything else is
skipped. -/
def processCell (row column : Nat) (cell : JSValue) (acc : Collected) : Collected :=
  match cell with
  | .vstr s =>
    if s = "" then acc
    else if s = "SPACE" then acc
    else if s = "POLYANET" then
      { acc with polyanets := acc.polyanets ++ [(row, column)] }
    else if jsEndsWith s "_SOLOON" then
      { acc with soloons :=
          acc.soloons ++ [(row, column, jsToLower (jsReplaceFirst s "_SOLOON"))] }
    else if jsEndsWith s "_COMETH" then
      { acc with comeths :=
          acc.comeths ++ [(row, column, jsToLower (jsReplaceFirst s "_COMETH"))] }
    else acc
  | _ => acc

/-- The nested row/column loops of `createPhase2Logo` (main.ts 61-77):
rows top to bottom, columns left to right. -/
def collectEntities (goalMap : List (List JSValue)) : Collected :=
  goalMap.enum.foldl
    (fun acc rowPair =>
      rowPair.2.enum.foldl
        (fun acc2 cellPair => processCell rowPair.1 cellPair.1 cellPair.2 acc2)
        acc)
    ⟨[], [], []⟩

/-- One placeable entity: the element kinds of the `allEntities` array of
`createPhase2Logo` (main.ts 83-87). -/
inductive Entity where
  | polyanet (row column : Nat)
  | soloon (row column : Nat) (color : String)
  | cometh (row column : Nat) (direction : String)
deriving DecidableEq

/-- The `allEntities` array (main.ts 83-87): all polyanets first, then all
soloons, then all comeths, each group in collection order. -/
def allEntities (c : Collected) : List Entity :=
  c.polyanets.map (fun p => .polyanet p.1 p.2)
    ++ c.soloons.map (fun s => .soloon s.1 s.2.1 s.2.2)
    ++ c.comeths.map (fun s => .cometh s.1 s.2.1 s.2.2)

/-- The classification the loop body performs on one cell, as an optional
entity (same branches as `processCell`, without the accumulators). -/
def cellEntity (row column : Nat) (cell : JSValue) : Option Entity :=
  match cell with
  | .vstr s =>
    if s = "" then none
    else if s = "SPACE" then none
    else if s = "POLYANET" then some (.polyanet row column)
    else if jsEndsWith s "_SOLOON" then
      some (.soloon row column (jsToLower (jsReplaceFirst s "_SOLOON")))
    else if jsEndsWith s "_COMETH" then
      some (.cometh row column (jsToLower (jsReplaceFirst s "_COMETH")))
    else none
  | _ => none

/-- Uncurried `cellEntity` over an indexed cell. -/
def cellAt (t : Nat × Nat × JSValue) : Option Entity :=
  cellEntity t.1 t.2.1 t.2.2

/-- All cells of the grid with their (row, column) indices, in row-major
scan order. -/
def gridCells (goalMap : List (List JSValue)) : List (Nat × Nat × JSValue) :=
  (goalMap.enum.map fun rp => rp.2.enum.map fun cp => (rp.1, cp.1, cp.2)).flatten

/-- Modelled from the spec (section 4.2 step 2): the flattened entity list
in row-major scan order — rows top to bottom, columns left to right, each
non-SPACE cell's entity appended in the position it is visited.  Stated for
comparison against `allEntities (collectEntities g)`, the order the code
actually produces. -/
def rowMajorEntities (goalMap : List (List JSValue)) : List Entity :=
  (gridCells goalMap).filterMap cellAt

/-- Is the entity a polyanet? -/
def isPolyanetE : Entity → Bool
  | .polyanet _ _ => true
  | _ => false

/-- Is the entity a soloon? -/
def isSoloonE : Entity → Bool
  | .soloon _ _ _ => true
  | _ => false

/-- Is the entity a cometh? -/
def isComethE : Entity → Bool
  | .cometh _ _ _ => true
  | _ => false

/-- Is the cell a non-empty (truthy) string, i.e. a candidate for
classification at all? -/
def isCandidateCell : JSValue → Bool
  | .vstr s => if s = "" then false else true
  | _ => false

/-- The polyanet coordinates a scan of the indexed cells collects, in scan
order. -/
def polysOf (ts : List (Nat × Nat × JSValue)) : List (Nat × Nat) :=
  ts.filterMap fun t =>
    match cellAt t with
    | some (.polyanet a b) => some (a, b)
    | _ => none

/-- The soloon records a scan of the indexed cells collects, in scan
order. -/
def soloonsOf (ts : List (Nat × Nat × JSValue)) : List (Nat × Nat × String) :=
  ts.filterMap fun t =>
    match cellAt t with
    | some (.soloon a b c) => some (a, b, c)
    | _ => none

/-- The cometh records a scan of the indexed cells collects, in scan
order. -/
def comethsOf (ts : List (Nat × Nat × JSValue)) : List (Nat × Nat × String) :=
  ts.filterMap fun t =>
    match cellAt t with
    | some (.cometh a b d) => some (a, b, d)
    | _ => none

theorem cometh_not_soloon (L : String) (h : jsEndsWith L "_COMETH" = true) :
    jsEndsWith L "_SOLOON" = false := by
  rw [jsEndsWith] at h ⊢
  cases hr : L.data.reverse with
  | nil => rw [hr] at h; exact absurd h (by decide)
  | cons c cs =>
    rw [hr] at h
    have h' : (('H' == c) && isPrefOf ['T', 'E', 'M', 'O', 'C', '_'] cs) = true := h
    simp only [Bool.and_eq_true, beq_iff_eq] at h'
    obtain ⟨rfl, -⟩ := h'
    rfl

theorem processCell_eq (r c : Nat) (cell : JSValue) (acc : Collected) :
    processCell r c cell acc =
      match cellEntity r c cell with
      | none => acc
      | some (.polyanet a b) => { acc with polyanets := acc.polyanets ++ [(a, b)] }
      | some (.soloon a b col) => { acc with soloons := acc.soloons ++ [(a, b, col)] }
      | some (.cometh a b d) => { acc with comeths := acc.comeths ++ [(a, b, d)] } := by
  cases cell <;> simp only [processCell, cellEntity] <;> split_ifs <;> rfl

theorem foldl_processCell (ts : List (Nat × Nat × JSValue)) (acc : Collected) :
    ts.foldl (fun a t => processCell t.1 t.2.1 t.2.2 a) acc =
      ⟨acc.polyanets ++ polysOf ts, acc.soloons ++ soloonsOf ts,
        acc.comeths ++ comethsOf ts⟩ := by
  induction ts generalizing acc with
  | nil => simp [polysOf, soloonsOf, comethsOf]
  | cons t ts ih =>
    rw [List.foldl_cons, processCell_eq, ih]
    cases h : cellEntity t.1 t.2.1 t.2.2 with
    | none =>
      simp [polysOf, soloonsOf, comethsOf, List.filterMap_cons, cellAt, h]
    | some e =>
      cases e <;>
        simp [polysOf, soloonsOf, comethsOf, List.filterMap_cons, cellAt, h]

theorem collectEntities_eq (g : List (List JSValue)) :
    collectEntities g =
      (gridCells g).foldl (fun a t => processCell t.1 t.2.1 t.2.2 a) ⟨[], [], []⟩ := by
  unfold collectEntities gridCells
  simp only [List.foldl_flatten, List.foldl_map]

theorem filterMap_cellAt_filter_poly (ts : List (Nat × Nat × JSValue)) :
    (ts.filterMap cellAt).filter isPolyanetE =
      (polysOf ts).map fun p => Entity.polyanet p.1 p.2 := by
  induction ts with
  | nil => rfl
  | cons t ts ih =>
    cases h : cellAt t with
    | none => simp_all [polysOf, List.filterMap_cons, h]
    | some e =>
      cases e <;>
        simp_all [polysOf, List.filterMap_cons, h, isPolyanetE, List.filter_cons]

theorem filterMap_cellAt_filter_soloon (ts : List (Nat × Nat × JSValue)) :
    (ts.filterMap cellAt).filter isSoloonE =
      (soloonsOf ts).map fun s => Entity.soloon s.1 s.2.1 s.2.2 := by
  induction ts with
  | nil => rfl
  | cons t ts ih =>
    cases h : cellAt t with
    | none => simp_all [soloonsOf, List.filterMap_cons, h]
    | some e =>
      cases e <;>
        simp_all [soloonsOf, List.filterMap_cons, h, isSoloonE, List.filter_cons]

theorem filterMap_cellAt_filter_cometh (ts : List (Nat × Nat × JSValue)) :
    (ts.filterMap cellAt).filter isComethE =
      (comethsOf ts).map fun s => Entity.cometh s.1 s.2.1 s.2.2 := by
  induction ts with
  | nil => rfl
  | cons t ts ih =>
    cases h : cellAt t with
    | none => simp_all [comethsOf, List.filterMap_cons, h]
    | some e =>
      cases e <;>
        simp_all [comethsOf, List.filterMap_cons, h, isComethE, List.filter_cons]

/-- C5 counterexample: on the goal map `[[UP_COMETH, POLYANET]]` the code
submits the polyanet at (0,1) before the cometh at (0,0), so the flattened
list is NOT in row-major scan order — it only coincides with scan order on
maps where scan order happens to agree with the type grouping. -/
theorem C5_counterexample :
    allEntities (collectEntities [[.vstr "UP_COMETH", .vstr "POLYANET"]]) ≠
      rowMajorEntities [[.vstr "UP_COMETH", .vstr "POLYANET"]] := by decide

/-- C5 amended: for every goal map the flattened list is grouped by entity
type — all polyanets, then all soloons, then all comeths — each group in
row-major scan order; this equals the full row-major scan order only when
that order already has the groups in this sequence. -/
theorem C5_grouped_by_type (g : List (List JSValue)) :
    allEntities (collectEntities g) =
      (rowMajorEntities g).filter isPolyanetE
        ++ (rowMajorEntities g).filter isSoloonE
        ++ (rowMajorEntities g).filter isComethE := by
  rw [collectEntities_eq, foldl_processCell]
  unfold allEntities rowMajorEntities
  simp [filterMap_cellAt_filter_poly, filterMap_cellAt_filter_soloon,
    filterMap_cellAt_filter_cometh]

/-- C6 counterexample: the label `_SOLOONX_SOLOON` ends in `_SOLOON` and
its prefix before the trailing `_SOLOON` is `_SOLOONX`, but the code uses
JS `replace`, which removes the FIRST occurrence, producing color
`x_soloon` instead of the lower-cased prefix `_soloonx`. -/
theorem C6_counterexample :
    "_SOLOONX" ++ "_SOLOON" = "_SOLOONX_SOLOON" ∧
    jsEndsWith "_SOLOONX_SOLOON" "_SOLOON" = true ∧
    (collectEntities [[.vstr "_SOLOONX_SOLOON"]]).soloons = [(0, 0, "x_soloon")] ∧
    jsToLower "_SOLOONX" = "_soloonx" ∧
    ("x_soloon" : String) ≠ "_soloonx" :=
  ⟨rfl, by decide, by decide, by decide, by decide⟩

/-- C6 amended: `SPACE` produces nothing, `POLYANET` exactly one polyanet
at the cell; a label ending in `_SOLOON` produces one soloon whose color is
the label with the FIRST occurrence of `_SOLOON` removed, lower-cased
(which equals the prefix before `_SOLOON` whenever `_SOLOON` occurs only as
the trailing suffix); `_COMETH` analogously; any other label is silently
skipped. -/
theorem C6_cell_classification :
    collectEntities [[.vstr "SPACE"]] = ⟨[], [], []⟩ ∧
    collectEntities [[.vstr "POLYANET"]] = ⟨[(0, 0)], [], []⟩ ∧
    (∀ L, jsEndsWith L "_SOLOON" = true →
      collectEntities [[.vstr L]] =
        ⟨[], [(0, 0, jsToLower (jsReplaceFirst L "_SOLOON"))], []⟩) ∧
    (∀ L, jsEndsWith L "_COMETH" = true →
      collectEntities [[.vstr L]] =
        ⟨[], [], [(0, 0, jsToLower (jsReplaceFirst L "_COMETH"))]⟩) ∧
    (∀ L, L ≠ "" → L ≠ "SPACE" → L ≠ "POLYANET" →
      jsEndsWith L "_SOLOON" = false → jsEndsWith L "_COMETH" = false →
      collectEntities [[.vstr L]] = ⟨[], [], []⟩) := by
  have hone : ∀ cell : JSValue,
      collectEntities [[cell]] = processCell 0 0 cell ⟨[], [], []⟩ :=
    fun cell => rfl
  refine ⟨by decide, by decide, ?_, ?_, ?_⟩
  · intro L h
    have h0 : L ≠ "" := by rintro rfl; exact absurd h (by decide)
    have h1 : L ≠ "SPACE" := by rintro rfl; exact absurd h (by decide)
    have h2 : L ≠ "POLYANET" := by rintro rfl; exact absurd h (by decide)
    rw [hone]
    simp [processCell, h0, h1, h2, h]
  · intro L h
    have h0 : L ≠ "" := by rintro rfl; exact absurd h (by decide)
    have h1 : L ≠ "SPACE" := by rintro rfl; exact absurd h (by decide)
    have h2 : L ≠ "POLYANET" := by rintro rfl; exact absurd h (by decide)
    have h3 : jsEndsWith L "_SOLOON" = false := cometh_not_soloon L h
    rw [hone]
    simp [processCell, h0, h1, h2, h3, h]
  · intro L h0 h1 h2 h3 h4
    rw [hone]
    simp [processCell, h0, h1, h2, h3, h4]

/-- C6 witness: a well-formed label `BLUE_SOLOON` yields one soloon at
(0,0) with the color computed by the first-occurrence replacement. -/
theorem C6_cell_classification_witness :
    jsEndsWith "BLUE_SOLOON" "_SOLOON" = true ∧
    collectEntities [[.vstr "BLUE_SOLOON"]] =
      ⟨[], [(0, 0, jsToLower (jsReplaceFirst "BLUE_SOLOON" "_SOLOON"))], []⟩ :=
  ⟨by decide, C6_cell_classification.2.2.1 "BLUE_SOLOON" (by decide)⟩

/-! ## The reconciliation driver `createPhase2Logo` (main.ts 36-138) -/

/-- Observable steps of one `createPhase2Logo` run: one constructor per
console line of the source, plus the launch and settlement of each create
call, the inter-batch delay, and the validation call.  The constructor
`tally` stands for the post-settlement successes-versus-failures summary
that the spec describes (section 4.2 step 4); it is part of the alphabet so
that sentence can be stated, and the theorems show the code never emits
it — the only count the code logs is `logFound`, emitted BEFORE
submission. -/
inductive Event where
  | logStart
  | logGoalDump
  | logErrorFetch
  | logErrorFormat
  | logDims
  | logFirstRows
  | logFound (total poly solo com : Nat)
  | logBatchPlan (batches : Nat)
  | logBatchStart (index total : Nat)
  | launch (e : Entity)
  | settle (e : Entity) (success : Bool)
  | interBatchDelay (ms : Nat)
  | validateCall
  | logValidation (message : String)
  | logPhaseComplete
  | logPhaseFailed
  | tally (succeeded failedCount : Nat)
deriving DecidableEq

/-- The `goal` field of the decoded goal-map body as the driver reads it:
either not an array (including absent), or an array of rows of untyped
cells. -/
inductive GoalVal where
  | notArray
  | arr (rows : List (List JSValue))
deriving DecidableEq

/-- The decoded response body fields the driver reads: `data.goal` for the
goal-map fetch and `data.solved` for validation. -/
structure RespBody where
  goal : GoalVal := .notArray
  solved : Bool := false
deriving DecidableEq

/-- How one create call settles from the driver's point of view: it
resolves to an `APIResponse`, or rejects (the driver's per-entity `catch`,
main.ts 115-118, turns a rejection into a failed result). -/
inductive CreateOutcome where
  | resp (r : APIResponse RespBody)
  | thrown (e : JSError)

/-- The remote outcomes of one run: the settled result of the goal-map
fetch, of each entity's create call, and of the validation call. -/
structure Oracle where
  goal : APIResponse RespBody
  create : Entity → CreateOutcome
  validate : APIResponse RespBody

/-- Did the create call settle successfully?  A rejection is caught and
counted as failure (main.ts 115-118). -/
def settleSuccess : CreateOutcome → Bool
  | .resp r => r.success
  | .thrown _ => false

/-- `const batchSize = 5` (main.ts 90). -/
def batchSize : Nat := 5

/-- The chunking loop (main.ts 93-95) with structural fuel: each step
slices off the next `batchSize` entities.  The fuel only bounds the number
of slices; `mkBatches` below supplies the list length, which always
suffices since every step consumes at least one element. -/
def mkBatchesFuel : Nat → List Entity → List (List Entity)
  | 0, _ => []
  | _ + 1, [] => []
  | fuel + 1, e :: rest =>
    (e :: rest).take batchSize :: mkBatchesFuel fuel ((e :: rest).drop batchSize)

/-- The chunking loop (main.ts 93-95): slices of `batchSize` consecutive
entities, in order. -/
def mkBatches (l : List Entity) : List (List Entity) :=
  mkBatchesFuel l.length l

/-- Events of one batch (main.ts 99-122): the batch-start log, then every
create call of the batch launched in order, then all of them settling. -/
def batchTrace (o : Oracle) (index total : Nat) (b : List Entity) : List Event :=
  Event.logBatchStart (index + 1) total
    :: (b.map Event.launch
        ++ b.map fun e => Event.settle e (settleSuccess (o.create e)))

/-- The batch loop (main.ts 99-129): one batch at a time, awaiting all its
settlements, with a 2000 ms delay after every batch but the last. -/
def batchesTrace (o : Oracle) (total : Nat) : Nat → List (List Entity) → List Event
  | _, [] => []
  | index, b :: rest =>
    batchTrace o index total b
      ++ ((if rest.isEmpty then [] else [Event.interBatchDelay 2000])
        ++ batchesTrace o total (index + 1) rest)

/-- `validateResponse.success && validateResponse.data?.solved`
(main.ts 133). -/
def solvedData (r : APIResponse RespBody) : Bool :=
  r.success &&
    match r.data with
    | some b => b.solved
    | none => false

/-- The main phase of the driver once a goal-map array is in hand
(main.ts 53-137): dimension logs, flattening, batch submission, then the
single validation call and its result logs. -/
def phase2Main (o : Oracle) (goalMap : List (List JSValue)) : List Event :=
  let c := collectEntities goalMap
  let batches := mkBatches (allEntities c)
  Event.logDims :: Event.logFirstRows
    :: Event.logFound (c.polyanets.length + c.soloons.length + c.comeths.length)
        c.polyanets.length c.soloons.length c.comeths.length
    :: Event.logBatchPlan batches.length
    :: (batchesTrace o batches.length 0 batches
        ++ Event.validateCall
          :: Event.logValidation o.validate.message
          :: [if solvedData o.validate then Event.logPhaseComplete
              else Event.logPhaseFailed])

/-- The event trace of `createPhase2Logo` (main.ts 36-138): abort with an
error log when the fetch failed or carried no data, or when `data.goal` is
not an array; otherwise run the main phase. -/
def createPhase2Logo (o : Oracle) : List Event :=
  Event.logStart ::
    (if o.goal.success = false then [Event.logErrorFetch]
     else
       match o.goal.data with
       | none => [Event.logErrorFetch]
       | some body =>
         Event.logGoalDump ::
           (match body.goal with
            | .notArray => [Event.logErrorFormat]
            | .arr goalMap => phase2Main o goalMap))

/-- Is the event the launch of a create call? -/
def isLaunchEv : Event → Bool
  | .launch _ => true
  | _ => false

/-- Is the event the settlement of a create call? -/
def isSettleEv : Event → Bool
  | .settle _ _ => true
  | _ => false

/-- Is the event a post-settlement successes/failures tally? -/
def isTallyEv : Event → Bool
  | .tally _ _ => true
  | _ => false

/-- How the number of in-flight create calls changes at one event: a
launch starts one, a settlement finishes one, everything else leaves it
unchanged. -/
def inFlightStep (n : Nat) : Event → Nat
  | .launch _ => n + 1
  | .settle _ _ => n - 1
  | _ => n

/-- The in-flight count at every instant of a trace, starting from
`start`: the level before the first event and after each event. -/
def inFlightLevels (start : Nat) : List Event → List Nat
  | [] => [start]
  | e :: es => start :: inFlightLevels (inFlightStep start e) es

theorem mkBatchesFuel_length_le (fuel : Nat) :
    ∀ (l : List Entity), ∀ b ∈ mkBatchesFuel fuel l, b.length ≤ batchSize := by
  induction fuel with
  | zero => intro l b hb; simp [mkBatchesFuel] at hb
  | succ fuel ih =>
    intro l b hb
    cases l with
    | nil => simp [mkBatchesFuel] at hb
    | cons e rest =>
      simp only [mkBatchesFuel] at hb
      rcases List.mem_cons.mp hb with rfl | hb
      · rw [List.length_take]; exact min_le_left _ _
      · exact ih _ b hb

theorem mkBatches_length_le (l : List Entity) :
    ∀ b ∈ mkBatches l, b.length ≤ batchSize :=
  mkBatchesFuel_length_le l.length l

theorem mkBatchesFuel_flatten (fuel : Nat) :
    ∀ (l : List Entity), l.length ≤ fuel → (mkBatchesFuel fuel l).flatten = l := by
  induction fuel with
  | zero =>
    intro l h
    cases l with
    | nil => rfl
    | cons e rest => simp at h
  | succ fuel ih =>
    intro l h
    cases l with
    | nil => rfl
    | cons e rest =>
      simp only [mkBatchesFuel, List.flatten_cons]
      rw [ih _ (by
        rw [List.length_drop, batchSize]
        simp only [List.length_cons] at h ⊢
        omega)]
      exact List.take_append_drop _ _

theorem mkBatches_flatten (l : List Entity) : (mkBatches l).flatten = l :=
  mkBatchesFuel_flatten l.length l le_rfl

theorem inFlightStep_neutral (e : Event) (hl : isLaunchEv e = false)
    (hs : isSettleEv e = false) (n : Nat) : inFlightStep n e = n := by
  cases e <;> simp_all [isLaunchEv, isSettleEv, inFlightStep]

theorem inFlightLevels_neutral_cons (e : Event) (hl : isLaunchEv e = false)
    (hs : isSettleEv e = false) (s : Nat) (t : List Event) :
    inFlightLevels s (e :: t) = s :: inFlightLevels s t := by
  simp only [inFlightLevels, inFlightStep_neutral e hl hs]

theorem mem_inFlightLevels_append (xs ys : List Event) :
    ∀ (s x : Nat), x ∈ inFlightLevels s (xs ++ ys) →
      x ∈ inFlightLevels s xs ∨ x ∈ inFlightLevels (xs.foldl inFlightStep s) ys := by
  induction xs with
  | nil => intro s x h; exact Or.inr (by simpa using h)
  | cons e xs ih =>
    intro s x h
    simp only [List.cons_append, inFlightLevels, List.mem_cons] at h
    rcases h with rfl | h
    · exact Or.inl (by simp [inFlightLevels])
    · rcases ih _ x h with h1 | h1
      · exact Or.inl (by simp [inFlightLevels, h1])
      · exact Or.inr (by simpa using h1)

theorem inFlightLevels_launch (l : List Entity) :
    ∀ s : Nat,
      (∀ x ∈ inFlightLevels s (l.map Event.launch), x ≤ s + l.length) ∧
      (l.map Event.launch).foldl inFlightStep s = s + l.length := by
  induction l with
  | nil => intro s; simp [inFlightLevels]
  | cons e l ih =>
    intro s
    constructor
    · intro x hx
      simp only [List.map_cons, inFlightLevels, inFlightStep, List.mem_cons] at hx
      rcases hx with rfl | hx
      · simp
      · have := (ih (s + 1)).1 x hx
        simp only [List.length_cons]
        omega
    · simp only [List.map_cons, List.foldl_cons, inFlightStep, List.length_cons]
      rw [(ih (s + 1)).2]
      omega

theorem inFlightLevels_settle (l : List Entity) (f : Entity → Bool) :
    ∀ s : Nat,
      (∀ x ∈ inFlightLevels s (l.map fun e => Event.settle e (f e)), x ≤ s) ∧
      (l.map fun e => Event.settle e (f e)).foldl inFlightStep s = s - l.length := by
  induction l with
  | nil => intro s; simp [inFlightLevels]
  | cons e l ih =>
    intro s
    constructor
    · intro x hx
      simp only [List.map_cons, inFlightLevels, inFlightStep, List.mem_cons] at hx
      rcases hx with rfl | hx
      · exact le_refl _
      · exact le_trans ((ih (s - 1)).1 x hx) (Nat.sub_le s 1)
    · simp only [List.map_cons, List.foldl_cons, inFlightStep, List.length_cons]
      rw [(ih (s - 1)).2]
      omega

theorem inFlightLevels_batchTrace (o : Oracle) (i t : Nat) (b : List Entity) :
    (∀ x ∈ inFlightLevels 0 (batchTrace o i t b), x ≤ b.length) ∧
    (batchTrace o i t b).foldl inFlightStep 0 = 0 := by
  unfold batchTrace
  constructor
  · intro x hx
    simp only [inFlightLevels, inFlightStep] at hx
    rcases List.mem_cons.mp hx with rfl | hx
    · exact Nat.zero_le _
    · rcases mem_inFlightLevels_append _ _ 0 x hx with h | h
      · simpa using (inFlightLevels_launch b 0).1 x h
      · rw [(inFlightLevels_launch b 0).2] at h
        simpa using (inFlightLevels_settle b _ _).1 x h
  · simp only [List.foldl_cons, inFlightStep]
    rw [List.foldl_append,
      (inFlightLevels_launch b 0).2, (inFlightLevels_settle b _ _).2]
    omega

theorem inFlightLevels_mid (c : Bool) (s : Nat) :
    (∀ x ∈ inFlightLevels s
        (if c then ([] : List Event) else [Event.interBatchDelay 2000]), x = s) ∧
    ((if c then ([] : List Event) else [Event.interBatchDelay 2000]).foldl
        inFlightStep s = s) := by
  cases c <;> simp [inFlightLevels, inFlightStep]

theorem inFlightLevels_batchesTrace (o : Oracle) (t : Nat) :
    ∀ (bs : List (List Entity)) (i : Nat),
      (∀ b ∈ bs, b.length ≤ batchSize) →
      (∀ x ∈ inFlightLevels 0 (batchesTrace o t i bs), x ≤ batchSize) ∧
      (batchesTrace o t i bs).foldl inFlightStep 0 = 0 := by
  intro bs
  induction bs with
  | nil =>
    intro i hb
    constructor
    · intro x hx
      simp only [batchesTrace, inFlightLevels, List.mem_singleton] at hx
      subst hx
      exact Nat.zero_le _
    · rfl
  | cons b bs ih =>
    intro i hb
    have hlen : b.length ≤ batchSize := hb b (List.mem_cons_self b bs)
    have hrest : ∀ b2 ∈ bs, b2.length ≤ batchSize :=
      fun b2 hb2 => hb b2 (List.mem_cons_of_mem b hb2)
    simp only [batchesTrace]
    constructor
    · intro x hx
      rcases mem_inFlightLevels_append _ _ 0 x hx with h | h
      · exact le_trans ((inFlightLevels_batchTrace o i t b).1 x h) hlen
      · rw [(inFlightLevels_batchTrace o i t b).2] at h
        rcases mem_inFlightLevels_append _ _ 0 x h with h2 | h2
        · rw [(inFlightLevels_mid bs.isEmpty 0).1 x h2]
          exact Nat.zero_le _
        · rw [(inFlightLevels_mid bs.isEmpty 0).2] at h2
          exact (ih (i + 1) hrest).1 x h2
    · rw [List.foldl_append, (inFlightLevels_batchTrace o i t b).2,
        List.foldl_append, (inFlightLevels_mid bs.isEmpty 0).2,
        (ih (i + 1) hrest).2]

theorem inFlightLevels_validate_suffix (o : Oracle) (s : Nat) :
    ∀ x ∈ inFlightLevels s
        (Event.validateCall :: Event.logValidation o.validate.message
          :: [if solvedData o.validate then Event.logPhaseComplete
              else Event.logPhaseFailed]),
      x = s := by
  intro x hx
  cases h : solvedData o.validate <;> simp only [h] at hx <;>
    simp [inFlightLevels, inFlightStep] at hx <;> tauto

/-- C1: at every instant of a run, the number of in-flight create calls
never exceeds the batch size of 5: each batch launches at most `batchSize`
creates and all of them settle before the next batch starts, so every
in-flight level of the whole trace is at most `batchSize`. -/
theorem C1_bounded_concurrency (o : Oracle) :
    ∀ x ∈ inFlightLevels 0 (createPhase2Logo o), x ≤ batchSize := by
  intro x hx
  unfold createPhase2Logo at hx
  by_cases hs : o.goal.success = false
  · rw [if_pos hs] at hx
    simp [inFlightLevels, inFlightStep] at hx
    subst hx
    exact Nat.zero_le _
  · rw [if_neg hs] at hx
    cases hd : o.goal.data with
    | none =>
      simp only [hd] at hx
      simp [inFlightLevels, inFlightStep] at hx
      subst hx
      exact Nat.zero_le _
    | some body =>
      simp only [hd] at hx
      cases hg : body.goal with
      | notArray =>
        simp only [hg] at hx
        simp [inFlightLevels, inFlightStep] at hx
        subst hx
        exact Nat.zero_le _
      | arr g =>
        simp only [hg] at hx
        unfold phase2Main at hx
        simp only [inFlightLevels, inFlightStep, List.mem_cons] at hx
        rcases hx with rfl | rfl | rfl | rfl | rfl | rfl | hx
        · exact Nat.zero_le _
        · exact Nat.zero_le _
        · exact Nat.zero_le _
        · exact Nat.zero_le _
        · exact Nat.zero_le _
        · exact Nat.zero_le _
        · rcases mem_inFlightLevels_append _ _ 0 x hx with h | h
          · exact (inFlightLevels_batchesTrace o _ _ 0
              (mkBatches_length_le _)).1 x h
          · rw [(inFlightLevels_batchesTrace o _ _ 0
              (mkBatches_length_le _)).2] at h
            rw [inFlightLevels_validate_suffix o 0 x h]
            exact Nat.zero_le _

/-- A small oracle: a successful goal-map fetch with a single POLYANET
cell, successful creates, and a solved validation. -/
def oracleSmall : Oracle where
  goal := ⟨true, "Goal map retrieved successfully",
    some ⟨.arr [[.vstr "POLYANET"]], false⟩⟩
  create := fun _ => .resp ⟨true, "Request successful", none⟩
  validate := ⟨true, "Map validation successful", some ⟨.notArray, true⟩⟩

/-- C1 witness: in the single-polyanet run the level 1 is reached while
its create call is in flight, and is within the bound. -/
theorem C1_bounded_concurrency_witness :
    1 ∈ inFlightLevels 0 (createPhase2Logo oracleSmall) ∧ 1 ≤ batchSize :=
  ⟨by decide, C1_bounded_concurrency oracleSmall 1 (by decide)⟩

/-- Is the event the validation call? -/
def isValidateEv : Event → Bool
  | .validateCall => true
  | _ => false

theorem createPhase2Logo_success (o : Oracle) (body : RespBody)
    (g : List (List JSValue)) (h1 : o.goal.success = true)
    (h2 : o.goal.data = some body) (h3 : body.goal = .arr g) :
    createPhase2Logo o =
      Event.logStart :: Event.logGoalDump :: phase2Main o g := by
  unfold createPhase2Logo
  simp [h1, h2, h3]

theorem createPhase2Logo_abort (o : Oracle)
    (h : o.goal.success = false ∨ o.goal.data = none ∨
      ∃ body, o.goal.data = some body ∧ body.goal = .notArray) :
    createPhase2Logo o = [Event.logStart, Event.logErrorFetch] ∨
    createPhase2Logo o = [Event.logStart, Event.logGoalDump, Event.logErrorFormat] := by
  unfold createPhase2Logo
  rcases h with h | h | ⟨body, hb, hg⟩
  · rw [if_pos h]; left; rfl
  · by_cases hs : o.goal.success = false
    · rw [if_pos hs]; left; rfl
    · rw [if_neg hs, h]; left; rfl
  · by_cases hs : o.goal.success = false
    · rw [if_pos hs]; left; rfl
    · rw [if_neg hs, hb]; right; simp [hg]

theorem batchTrace_events (o : Oracle) (i t : Nat) (b : List Entity) :
    ∀ e ∈ batchTrace o i t b,
      isTallyEv e = false ∧ isValidateEv e = false := by
  intro e he
  simp only [batchTrace, List.mem_cons, List.mem_append, List.mem_map] at he
  rcases he with rfl | ⟨a, -, rfl⟩ | ⟨a, -, rfl⟩ <;> simp [isTallyEv, isValidateEv]

theorem batchesTrace_events (o : Oracle) (t : Nat) :
    ∀ (bs : List (List Entity)) (i : Nat), ∀ e ∈ batchesTrace o t i bs,
      isTallyEv e = false ∧ isValidateEv e = false := by
  intro bs
  induction bs with
  | nil => intro i e he; simp [batchesTrace] at he
  | cons b bs ih =>
    intro i e he
    simp only [batchesTrace, List.mem_append] at he
    rcases he with he | he | he
    · exact batchTrace_events o i t b e he
    · revert he
      split
      · simp
      · intro he
        simp only [List.mem_singleton] at he
        subst he
        exact ⟨rfl, rfl⟩
    · exact ih (i + 1) e he

theorem countP_launch_map (l : List Entity) :
    (l.map Event.launch).countP isLaunchEv = l.length ∧
    (l.map Event.launch).countP isSettleEv = 0 := by
  induction l with
  | nil => exact ⟨rfl, rfl⟩
  | cons e l ih =>
    constructor <;>
      simp [List.countP_cons, isLaunchEv, isSettleEv, ih.1, ih.2]

theorem countP_settle_map (l : List Entity) (f : Entity → Bool) :
    ((l.map fun e => Event.settle e (f e)).countP isSettleEv = l.length) ∧
    ((l.map fun e => Event.settle e (f e)).countP isLaunchEv = 0) := by
  induction l with
  | nil => exact ⟨rfl, rfl⟩
  | cons e l ih =>
    constructor <;>
      simp [List.countP_cons, isLaunchEv, isSettleEv, ih.1, ih.2]

theorem batchTrace_counts (o : Oracle) (i t : Nat) (b : List Entity) :
    (batchTrace o i t b).countP isLaunchEv = b.length ∧
    (batchTrace o i t b).countP isSettleEv = b.length := by
  unfold batchTrace
  constructor <;>
    simp [List.countP_cons, List.countP_append, (countP_launch_map b).1,
      (countP_launch_map b).2, (countP_settle_map b _).1,
      (countP_settle_map b _).2, isLaunchEv, isSettleEv]

theorem countP_mid (c : Bool) (p : Event → Bool)
    (hp : p (Event.interBatchDelay 2000) = false) :
    (if c then ([] : List Event)
      else [Event.interBatchDelay 2000]).countP p = 0 := by
  cases c <;> simp [List.countP_cons, hp]

theorem batchesTrace_counts (o : Oracle) (t : Nat) :
    ∀ (bs : List (List Entity)) (i : Nat),
      (batchesTrace o t i bs).countP isLaunchEv = (bs.map List.length).sum ∧
      (batchesTrace o t i bs).countP isSettleEv = (bs.map List.length).sum := by
  intro bs
  induction bs with
  | nil => intro i; exact ⟨rfl, rfl⟩
  | cons b bs ih =>
    intro i
    simp only [batchesTrace, List.countP_append, List.map_cons, List.sum_cons]
    constructor
    · rw [(batchTrace_counts o i t b).1, (ih (i + 1)).1,
        countP_mid bs.isEmpty isLaunchEv rfl]
      omega
    · rw [(batchTrace_counts o i t b).2, (ih (i + 1)).2,
        countP_mid bs.isEmpty isSettleEv rfl]
      omega

theorem mkBatches_sum_length (l : List Entity) :
    ((mkBatches l).map List.length).sum = l.length := by
  rw [← List.length_flatten, mkBatches_flatten]

theorem validateCall_mem_phase2Main (o : Oracle) (g : List (List JSValue)) :
    Event.validateCall ∈ phase2Main o g := by
  unfold phase2Main
  simp [List.mem_append, List.mem_cons]

/-- An oracle returning a non-rectangular (jagged) goal map with entities
in both rows. -/
def oracleJagged : Oracle where
  goal := ⟨true, "Goal map retrieved successfully",
    some ⟨.arr [[.vstr "POLYANET"],
      [.vstr "SPACE", .vstr "POLYANET"]], false⟩⟩
  create := fun _ => .resp ⟨true, "Request successful", none⟩
  validate := ⟨true, "Map validation successful", some ⟨.notArray, true⟩⟩

/-- C7 counterexample: a NON-RECTANGULAR goal map — row lengths 1 and 2 —
is not detected: the run does not abort, it flattens the jagged rows and
submits both create calls.  The "non-rectangular implies abort" part of
the claim is false of the code. -/
theorem C7_counterexample :
    ([[JSValue.vstr "POLYANET"],
      [JSValue.vstr "SPACE", JSValue.vstr "POLYANET"]].map List.length) = [1, 2] ∧
    (createPhase2Logo oracleJagged).countP isLaunchEv = 2 ∧
    Event.validateCall ∈ createPhase2Logo oracleJagged :=
  ⟨by decide, by decide, by decide⟩

/-- C7 amended: the driver aborts before any create call — and before the
validation call — when the fetch failed, carried no data, or its `goal`
field is not an array.  Non-rectangular arrays are not checked; they are
flattened row by row and submitted. -/
theorem C7_abort_on_bad_fetch (o : Oracle)
    (h : o.goal.success = false ∨ o.goal.data = none ∨
      ∃ body, o.goal.data = some body ∧ body.goal = .notArray) :
    (∀ e, Event.launch e ∉ createPhase2Logo o) ∧
    Event.validateCall ∉ createPhase2Logo o := by
  rcases createPhase2Logo_abort o h with h2 | h2 <;> rw [h2] <;>
    exact ⟨fun e => by simp, by simp⟩

/-- An oracle whose goal-map fetch failed outright. -/
def oracleFetchFail : Oracle where
  goal := ⟨false, "getGoalMap failed: Unable to connect to the API after retries", none⟩
  create := fun _ => .resp ⟨true, "Request successful", none⟩
  validate := ⟨true, "Map validation successful", none⟩

/-- C7 witness: after a failed fetch no create is launched and validation
is never called. -/
theorem C7_abort_on_bad_fetch_witness :
    Event.launch (Entity.polyanet 0 0) ∉ createPhase2Logo oracleFetchFail ∧
    Event.validateCall ∉ createPhase2Logo oracleFetchFail :=
  ⟨(C7_abort_on_bad_fetch oracleFetchFail (Or.inl rfl)).1 _,
   (C7_abort_on_bad_fetch oracleFetchFail (Or.inl rfl)).2⟩

/-- The spec's end-to-end scenario: 2x2 goal map with one polyanet, one
soloon and one cometh, all creates successful, validation solved. -/
def oracleSpecScenario : Oracle where
  goal := ⟨true, "Goal map retrieved successfully",
    some ⟨.arr [[.vstr "SPACE", .vstr "POLYANET"],
      [.vstr "BLUE_SOLOON", .vstr "UP_COMETH"]], false⟩⟩
  create := fun _ => .resp ⟨true, "Request successful", none⟩
  validate := ⟨true, "Map validation successful", some ⟨.notArray, true⟩⟩

/-- C8 counterexample: in the spec's end-to-end scenario — all three
creates mocked successful — the driver emits NO successes-versus-failures
tally event at all: the claimed "3 successful, 0 failed" report does not
exist in the code.  (Validation is still called exactly once.) -/
theorem C8_counterexample :
    (createPhase2Logo oracleSpecScenario).countP isLaunchEv = 3 ∧
    (createPhase2Logo oracleSpecScenario).countP isTallyEv = 0 ∧
    (createPhase2Logo oracleSpecScenario).countP isValidateEv = 1 :=
  ⟨by decide, by decide, by decide⟩

/-- C8 amended: after all create submissions settle the driver calls
validateMap exactly once and logs its verdict; it emits no
successes-versus-failures tally anywhere in the run (the only count logged
is the pre-submission entity count). -/
theorem C8_validate_once_no_tally (o : Oracle) (body : RespBody)
    (g : List (List JSValue)) (h1 : o.goal.success = true)
    (h2 : o.goal.data = some body) (h3 : body.goal = .arr g) :
    (∃ t1, createPhase2Logo o =
        t1 ++ Event.validateCall :: Event.logValidation o.validate.message
          :: [if solvedData o.validate then Event.logPhaseComplete
              else Event.logPhaseFailed] ∧
      Event.validateCall ∉ t1) ∧
    (createPhase2Logo o).countP isTallyEv = 0 ∧
    (createPhase2Logo o).countP isValidateEv = 1 := by
  rw [createPhase2Logo_success o body g h1 h2 h3]
  simp only [phase2Main]
  set c := collectEntities g with hc
  set batches := mkBatches (allEntities c) with hb
  have hbt := batchesTrace_events o batches.length batches 0
  have htally : (batchesTrace o batches.length 0 batches).countP isTallyEv = 0 :=
    List.countP_eq_zero.mpr fun e he => by simp [(hbt e he).1]
  have hval : (batchesTrace o batches.length 0 batches).countP isValidateEv = 0 :=
    List.countP_eq_zero.mpr fun e he => by simp [(hbt e he).2]
  refine ⟨⟨Event.logStart :: Event.logGoalDump :: Event.logDims :: Event.logFirstRows
      :: Event.logFound (c.polyanets.length + c.soloons.length + c.comeths.length)
          c.polyanets.length c.soloons.length c.comeths.length
      :: Event.logBatchPlan batches.length
      :: batchesTrace o batches.length 0 batches, by simp, ?_⟩, ?_, ?_⟩
  · intro hmem
    simp only [List.mem_cons] at hmem
    rcases hmem with h | h | h | h | h | h | h
    · exact absurd h (by simp)
    · exact absurd h (by simp)
    · exact absurd h (by simp)
    · exact absurd h (by simp)
    · exact absurd h (by simp)
    · exact absurd h (by simp)
    · exact absurd ((hbt Event.validateCall h).2) (by decide)
  · cases hsol : solvedData o.validate <;>
      simp [hsol, List.countP_cons, List.countP_append, isTallyEv, htally]
  · cases hsol : solvedData o.validate <;>
      simp [hsol, List.countP_cons, List.countP_append, isValidateEv, hval]

/-- C8 witness: the spec scenario run calls validation exactly once and
never emits a tally event. -/
theorem C8_validate_once_no_tally_witness :
    (createPhase2Logo oracleSpecScenario).countP isTallyEv = 0 ∧
    (createPhase2Logo oracleSpecScenario).countP isValidateEv = 1 :=
  ⟨(C8_validate_once_no_tally oracleSpecScenario _ _ rfl rfl rfl).2.1,
   (C8_validate_once_no_tally oracleSpecScenario _ _ rfl rfl rfl).2.2⟩

/-- C9: per-entity failures are isolated: whatever each create call does —
fail as a result, throw, or succeed — every flattened entity is launched
(as many launch events as entities), every one of them settles (the batch
loop runs to completion), and the run still reaches the validation call. -/
theorem C9_best_effort_isolation (o : Oracle) (body : RespBody)
    (g : List (List JSValue)) (h1 : o.goal.success = true)
    (h2 : o.goal.data = some body) (h3 : body.goal = .arr g) :
    (createPhase2Logo o).countP isLaunchEv =
      (allEntities (collectEntities g)).length ∧
    (createPhase2Logo o).countP isSettleEv =
      (allEntities (collectEntities g)).length ∧
    Event.validateCall ∈ createPhase2Logo o := by
  rw [createPhase2Logo_success o body g h1 h2 h3]
  have hcounts := batchesTrace_counts o
    (mkBatches (allEntities (collectEntities g))).length
    (mkBatches (allEntities (collectEntities g))) 0
  refine ⟨?_, ?_, by simp [validateCall_mem_phase2Main]⟩
  · cases hsol : solvedData o.validate <;>
      simp [phase2Main, hsol, List.countP_cons, List.countP_append,
        isLaunchEv, hcounts.1, mkBatches_sum_length]
  · cases hsol : solvedData o.validate <;>
      simp [phase2Main, hsol, List.countP_cons, List.countP_append,
        isSettleEv, hcounts.2, mkBatches_sum_length]

/-- An oracle where the polyanet create fails, the soloon create throws,
and the cometh create succeeds. -/
def oracleMixed : Oracle where
  goal := ⟨true, "Goal map retrieved successfully",
    some ⟨.arr [[.vstr "SPACE", .vstr "POLYANET"],
      [.vstr "BLUE_SOLOON", .vstr "UP_COMETH"]], false⟩⟩
  create := fun e =>
    match e with
    | .polyanet _ _ =>
      .resp ⟨false, "POST polyanets failed: Internal Server Error", none⟩
    | .soloon _ _ _ => .thrown (.jsError "boom")
    | .cometh _ _ _ => .resp ⟨true, "Request successful", none⟩
  validate := ⟨true, "Map validation successful", some ⟨.notArray, false⟩⟩

/-- C9 witness: with one failing create and one throwing create among
three entities, all three are still launched and settled and validation is
still reached. -/
theorem C9_best_effort_isolation_witness :
    (createPhase2Logo oracleMixed).countP isLaunchEv = 3 ∧
    (createPhase2Logo oracleMixed).countP isSettleEv = 3 ∧
    Event.validateCall ∈ createPhase2Logo oracleMixed := by
  have h := C9_best_effort_isolation oracleMixed _ _ rfl rfl rfl
  exact ⟨by rw [h.1]; decide, by rw [h.2.1]; decide, h.2.2⟩

/-- C10: flattening is total over arbitrary cell values: any cell that is
not a non-empty string — null, a number, a boolean, an object, undefined
or the empty string — produces no entity and is skipped, and a run whose
goal map mixes such cells with labels still completes through to the
validation call instead of crashing. -/
theorem C10_nonstring_cells :
    (∀ cell, isCandidateCell cell = false →
      ∀ (row column : Nat) (acc : Collected),
        processCell row column cell acc = acc) ∧
    (∀ (o : Oracle) (body : RespBody) (g : List (List JSValue)),
      o.goal.success = true → o.goal.data = some body → body.goal = .arr g →
      Event.validateCall ∈ createPhase2Logo o) := by
  constructor
  · intro cell hc row column acc
    cases cell with
    | vstr s =>
      simp only [isCandidateCell] at hc
      by_cases h : s = ""
      · simp [processCell, h]
      · rw [if_neg h] at hc
        exact absurd hc (by decide)
    | vnum n => rfl
    | vbool b => rfl
    | vnull => rfl
    | vundef => rfl
    | vobj => rfl
  · intro o body g h1 h2 h3
    rw [createPhase2Logo_success o body g h1 h2 h3]
    simp [validateCall_mem_phase2Main]

/-- An oracle whose goal map mixes non-string and falsy cells with one
real label. -/
def oracleUntyped : Oracle where
  goal := ⟨true, "Goal map retrieved successfully",
    some ⟨.arr [[.vnull, .vnum 7, .vstr "POLYANET"],
      [.vobj, .vstr "", .vbool true]], false⟩⟩
  create := fun _ => .resp ⟨true, "Request successful", none⟩
  validate := ⟨true, "Map validation successful", some ⟨.notArray, true⟩⟩

/-- C10 witness: a null cell is skipped unchanged and the mixed-cell run
still reaches validation. -/
theorem C10_nonstring_cells_witness :
    isCandidateCell JSValue.vnull = false ∧
    processCell 0 0 JSValue.vnull ⟨[], [], []⟩ = ⟨[], [], []⟩ ∧
    Event.validateCall ∈ createPhase2Logo oracleUntyped :=
  ⟨by decide, C10_nonstring_cells.1 JSValue.vnull (by decide) 0 0 _,
   C10_nonstring_cells.2 oracleUntyped _ _ rfl rfl rfl⟩

end Megaverse
